import Mathlib

/-!
Verification of the grouping core of the group-aeb-photos repository.

The definitions below are a shallow embedding of the Python sources
src/group_aeb_photos_seq.py (class Image with convert2date, _get_date,
is_aeb, aebvalue, almostequaltime, the __lt__ ordering, and the helper
is_timerange) and src/group-aeb-photos-threads.py (consume, process,
output_result).  Pure functions become Lean functions; code that can raise
returns Except PyErr; datetimes are modelled with calendar fields and exact
rational second arithmetic (Python datetime subtraction is exact to the
microsecond, which the rational difference reproduces).
-/

/-- Python exception classes that the embedded code can raise. -/
inductive PyErr where
  | keyError
  | valueError
  | attributeError
  | zeroDivisionError
deriving DecidableEq

/-- A metadata value as delivered by the exiftool JSON output: a string or a
number.  Numbers carry their exact value as a rational. -/
inductive Value where
  | str (s : String)
  | num (q : ℚ)
deriving DecidableEq

/-- A flat metadata mapping with namespace-qualified string keys, as consumed
by the Image class.  Keys are unique in Python dicts; lookup takes the first
match. -/
abbrev Metadata := List (String × Value)

/-- Lookup mirroring dict.get: the first binding of the key, if any. -/
def mget : Metadata → String → Option Value
  | [], _ => none
  | (k, v) :: rest, key => if k = key then some v else mget rest key

def kCreateDate : String := "EXIF:CreateDate"

def kDateTimeOriginal : String := "EXIF:DateTimeOriginal"

def kModifyDate : String := "EXIF:ModifyDate"

def kBracketMode : String := "MakerNotes:BracketMode"

def kAEBBracketValue : String := "MakerNotes:AEBBracketValue"

def kExposureTime : String := "EXIF:ExposureTime"

/-- A naive calendar datetime with microsecond precision, mirroring
datetime.datetime (year 1..9999, validated month and day). -/
structure DateTime where
  year : Nat
  month : Nat
  day : Nat
  hour : Nat
  minute : Nat
  second : Nat
  microsecond : Nat
deriving DecidableEq

/-- Gregorian leap-year rule used by datetime. -/
def isLeap (y : Nat) : Bool :=
  y % 4 == 0 && (y % 100 != 0 || y % 400 == 0)

/-- Length of a month, as validated by the datetime constructor. -/
def daysInMonth (y m : Nat) : Nat :=
  if m = 2 then (if isLeap y then 29 else 28)
  else if m = 4 ∨ m = 6 ∨ m = 9 ∨ m = 11 then 30
  else 31

/-- Days in the months of year y strictly before month m. -/
def daysBeforeMonth (y m : Nat) : Nat :=
  ((List.range (m - 1)).map (fun i => daysInMonth y (i + 1))).foldl (· + ·) 0

/-- Proleptic Gregorian ordinal of a date; day 1 is 0001-01-01.  This is
datetime.date.toordinal. -/
def toOrdinal (y m d : Nat) : Nat :=
  365 * (y - 1) + (y - 1) / 4 - (y - 1) / 100 + (y - 1) / 400
    + daysBeforeMonth y m + d

/-- The datetime as an exact integer count of microseconds from the
proleptic origin.  Python datetimes have microsecond resolution, so
differences of this quantity are exactly the timedelta that datetime
subtraction produces, scaled to microseconds; a duration of s seconds is
s * 1000000 in this unit. -/
def DateTime.toMicros (dt : DateTime) : ℤ :=
  86400000000 * (toOrdinal dt.year dt.month dt.day : ℤ)
    + 3600000000 * (dt.hour : ℤ) + 60000000 * (dt.minute : ℤ)
    + 1000000 * (dt.second : ℤ) + (dt.microsecond : ℤ)

/-- Span of leading decimal digits of a character list. -/
def takeDigits : List Char → List Char × List Char
  | [] => ([], [])
  | c :: cs =>
    if c.isDigit then
      let p := takeDigits cs
      (c :: p.1, p.2)
    else ([], c :: cs)

/-- Span of leading whitespace of a character list. -/
def takeSpaces : List Char → List Char × List Char
  | [] => ([], [])
  | c :: cs =>
    if c.isWhitespace then
      let p := takeSpaces cs
      (c :: p.1, p.2)
    else ([], c :: cs)

/-- Numeric value of a digit string. -/
def digitsToNat (ds : List Char) : Nat :=
  ds.foldl (fun a c => 10 * a + (c.toNat - 48)) 0

/-- Parse a string with datetime.strptime against the fixed format
YEAR:MONTH:DAY HOUR:MINUTE:SECOND.  Following the CPython strptime regex,
the year takes exactly four digits, every other field one or two digits,
and the space in the format matches a nonempty whitespace run; the whole
string must be consumed.  The datetime constructor additionally validates
the day against the month length, rejects year 0, and rejects the leap
seconds 60 and 61 that the regex itself would admit, so those inputs also
yield none. -/
def parseDateTime (s : String) : Option DateTime :=
  let yp := takeDigits s.toList
  if yp.1.length ≠ 4 then none else
  match yp.2 with
  | ':' :: r1 =>
    let mp := takeDigits r1
    if mp.1.length = 0 ∨ 2 < mp.1.length then none else
    match mp.2 with
    | ':' :: r2 =>
      let dp := takeDigits r2
      if dp.1.length = 0 ∨ 2 < dp.1.length then none else
      let sp := takeSpaces dp.2
      if sp.1.length = 0 then none else
      let hp := takeDigits sp.2
      if hp.1.length = 0 ∨ 2 < hp.1.length then none else
      match hp.2 with
      | ':' :: r3 =>
        let minp := takeDigits r3
        if minp.1.length = 0 ∨ 2 < minp.1.length then none else
        match minp.2 with
        | ':' :: r4 =>
          let secp := takeDigits r4
          if secp.1.length = 0 ∨ 2 < secp.1.length then none else
          if secp.2 ≠ [] then none else
          let y := digitsToNat yp.1
          let mo := digitsToNat mp.1
          let d := digitsToNat dp.1
          let h := digitsToNat hp.1
          let mi := digitsToNat minp.1
          let se := digitsToNat secp.1
          if 1 ≤ y ∧ 1 ≤ mo ∧ mo ≤ 12 ∧ 1 ≤ d ∧ d ≤ daysInMonth y mo
              ∧ h ≤ 23 ∧ mi ≤ 59 ∧ se ≤ 59 then
            some ⟨y, mo, d, h, mi, se, 0⟩
          else none
        | _ => none
      | _ => none
    | _ => none
  | _ => none

/-- Image.convert2date: strptime with the fixed format, then
replace(microsecond=0).  A missing value raises TypeError and a mismatch
raises ValueError inside strptime; both are caught and turned into None, so
the function is total. -/
def convert2date : Option Value → Option DateTime
  | some (Value.str s) => (parseDateTime s).map (fun d => { d with microsecond := 0 })
  | _ => none

/-- The ordered date-key list Image.DATA_KEYS from the source. -/
def DATA_KEYS : List String := [kCreateDate, kDateTimeOriginal, kModifyDate]

/-- Loop body of Image._get_date over the candidate keys. -/
def getDateAux (m : Metadata) (fallback : DateTime) : List String → DateTime
  | [] => fallback
  | k :: ks =>
    match convert2date (mget m k) with
    | some d => d
    | none => getDateAux m fallback ks

/-- Image._get_date: try the three date keys in DATA_KEYS order and return
the first parse success; if none parses, return the file modification time
unchanged. -/
def getDate (m : Metadata) (fallback : DateTime) : DateTime :=
  getDateAux m fallback DATA_KEYS

/-- Optional leading sign of the Fraction string grammar. -/
def parseSign : List Char → Int × List Char
  | '+' :: cs => (1, cs)
  | '-' :: cs => (-1, cs)
  | cs => (1, cs)

/-- True when only whitespace remains. -/
def allWhitespace (cs : List Char) : Bool := cs.all Char.isWhitespace

/-- Optional exponent of the Fraction string grammar: the letter e in either
case, an optional sign and a nonempty digit run.  A bare exponent letter
cannot be matched by anything else, so it makes the whole parse fail. -/
def parseExpPart : List Char → Option (Int × List Char)
  | c :: cs =>
    if c = 'e' ∨ c = 'E' then
      let sp := parseSign cs
      let dp := takeDigits sp.2
      if dp.1.length = 0 then none
      else some (sp.1 * (digitsToNat dp.1 : Int), dp.2)
    else some (0, c :: cs)
  | [] => some (0, [])

/-- Fraction(string) following the CPython rational grammar: surrounding
whitespace, an optional sign, then digits with either a slash and a
denominator, or an optional decimal point part and an optional exponent.
A zero denominator raises ZeroDivisionError; any other mismatch raises
ValueError. -/
def pyFractionOfStr (s : String) : Except PyErr ℚ :=
  let cs := s.toList.dropWhile Char.isWhitespace
  let sg := parseSign cs
  let ip := takeDigits sg.2
  match ip.2 with
  | '/' :: r1 =>
    if ip.1.length = 0 then .error .valueError else
    let dp := takeDigits r1
    if dp.1.length = 0 ∨ ¬ allWhitespace dp.2 then .error .valueError else
    if digitsToNat dp.1 = 0 then .error .zeroDivisionError else
    .ok ((sg.1 : ℚ) * (digitsToNat ip.1 : ℚ) / (digitsToNat dp.1 : ℚ))
  | '.' :: r1 =>
    let fp := takeDigits r1
    if ip.1.length = 0 ∧ fp.1.length = 0 then .error .valueError else
    match parseExpPart fp.2 with
    | none => .error .valueError
    | some (e, rest) =>
      if ¬ allWhitespace rest then .error .valueError else
      .ok ((sg.1 : ℚ) * ((digitsToNat (ip.1 ++ fp.1) : ℚ) / (10 : ℚ) ^ fp.1.length)
        * (10 : ℚ) ^ (e : ℤ))
  | r1 =>
    if ip.1.length = 0 then .error .valueError else
    match parseExpPart r1 with
    | none => .error .valueError
    | some (e, rest) =>
      if ¬ allWhitespace rest then .error .valueError else
      .ok ((sg.1 : ℚ) * (digitsToNat ip.1 : ℚ) * (10 : ℚ) ^ (e : ℤ))

/-- Fraction() over an exiftool JSON value: a number keeps its exact value,
a string goes through the rational string grammar. -/
def pyFraction : Value → Except PyErr ℚ
  | Value.num q => .ok q
  | Value.str s => pyFractionOfStr s

/-- The in-memory image record: the file name, its metadata mapping, and the
file modification time that _get_date uses as the last-resort timestamp. -/
structure Image where
  file : String
  exif : Metadata
  mtime : DateTime
deriving DecidableEq

/-- The date property: Image._get_date over the memoized exif mapping. -/
def Image.date (img : Image) : DateTime :=
  getDate img.exif img.mtime

/-- The resolved timestamp in integer microseconds. -/
def Image.dateMicros (img : Image) : ℤ :=
  img.date.toMicros

/-- The aebvalue property: Fraction(self.exif[MakerNotes:AEBBracketValue]).
The subscript raises KeyError when the key is absent and Fraction raises
ValueError on a malformed string; neither is caught here. -/
def Image.aebvalue (img : Image) : Except PyErr ℚ :=
  match mget img.exif kAEBBracketValue with
  | none => .error .keyError
  | some v => pyFraction v

/-- Image.is_aeb: true iff the BracketMode value equals the string AEB; the
KeyError of a missing key is suppressed and the method returns False. -/
def Image.is_aeb (img : Image) : Bool :=
  match mget img.exif kBracketMode with
  | some (Value.str s) => s == "AEB"
  | _ => false

/-- The attribute access self.exit in the source (lines 331 and 373 of
group_aeb_photos_seq.py): the Image class has no attribute named exit, a
typo for exif, so the access raises AttributeError, which the enclosing
suppress(KeyError) does not catch. -/
def Image.exitAttr (_ : Image) : Except PyErr Metadata :=
  .error .attributeError

/-- Model of a with suppress(KeyError) block whose fall-through path after
the block is return False: a KeyError becomes the value False, every other
outcome passes through. -/
def suppressKeyError (x : Except PyErr Bool) : Except PyErr Bool :=
  match x with
  | .error .keyError => .ok false
  | r => r

/-- Subscript access d[key] on a metadata mapping: a missing key raises
KeyError. -/
def dictItem (m : Metadata) (key : String) : Except PyErr Value :=
  match mget m key with
  | some v => .ok v
  | none => .error .keyError

/-- is_timerange: whether otherTime lies in [thisTime - seconds, thisTime +
seconds], i.e. the absolute timedelta is at most the window.  Times are in
microseconds, the window argument is in whole seconds as in the source. -/
def is_timerange (thisTime otherTime : ℤ) (seconds : ℤ) : Bool :=
  decide (|otherTime - thisTime| ≤ seconds * 1000000)

/-- int(float(q)): truncation toward zero (the float rounding of the
intermediate value is not modelled; the branch is only taken for values at
least 1). -/
def truncToInt (q : ℚ) : Int :=
  if q < 0 then ⌈q⌉ else ⌊q⌋

/-- Image.almostequaltime of the sequential script, modelled faithfully.
The close test math.isclose(seconds, 0.0, abs_tol=0.01) is exactly an
absolute difference of at most 10000 microseconds.  In the far branch the
source reads self.exit, which raises AttributeError; the rest of that
branch mirrors the source text but is unreachable. -/
def Image.almostequaltime (a other : Image) : Except PyErr Bool :=
  suppressKeyError (
    if |other.dateMicros - a.dateMicros| ≤ 10000 then
      .ok true
    else
      (Image.exitAttr a).bind fun ex =>
      (dictItem ex kExposureTime).bind fun v =>
      (pyFraction v).bind fun exposuretime =>
      let seconds : ℤ := if exposuretime < 1 then 1 else truncToInt exposuretime
      .ok (is_timerange a.dateMicros other.dateMicros seconds))

/-- Image.__lt__ of the sequential script.  When the two timestamps are
within 0.01 seconds the AEBBracketValue fractions decide the order; a
KeyError raised by either aebvalue read is suppressed and the method
returns False.  In the far branch the source reads self.exit and raises
AttributeError; the rest of that branch mirrors the source text but is
unreachable. -/
def Image.lt (a other : Image) : Except PyErr Bool :=
  suppressKeyError (
    if |other.dateMicros - a.dateMicros| ≤ 10000 then
      a.aebvalue.bind fun qa =>
      other.aebvalue.bind fun qb =>
      .ok (decide (qa < qb))
    else
      (Image.exitAttr a).bind fun ex =>
      (dictItem ex kExposureTime).bind fun v =>
      (pyFraction v).bind fun exposuretime =>
      let seconds : ℤ := if exposuretime < 1 then 1 else truncToInt exposuretime
      if ¬ is_timerange a.dateMicros other.dateMicros seconds then
        .ok false
      else
        a.aebvalue.bind fun qa =>
        other.aebvalue.bind fun qb =>
        .ok (decide (qa < qb)))

/-- consume of the threaded script: keep an image only when it is AEB. -/
def consume (image : Image) : Option Image :=
  if image.is_aeb then some image else none

/-- result.setdefault(image.date.isoformat(), []).append(image) on an
insertion-ordered mapping.  The key is the datetime itself, standing for
its isoformat string, which is injective on datetimes. -/
def addImage : List (DateTime × List Image) → Image → List (DateTime × List Image)
  | [], img => [(img.date, [img])]
  | (k, ms) :: rest, img =>
    if k = img.date then (k, ms ++ [img]) :: rest
    else (k, ms) :: addImage rest img

/-- Body of the collection loop of process: a future that produced None is
skipped, an AEB image is appended to the group of its timestamp. -/
def processStep (result : List (DateTime × List Image)) (img : Image) :
    List (DateTime × List Image) :=
  match consume img with
  | none => result
  | some image => addImage result image

/-- process of the threaded script.  The input list order stands for the
order in which the futures complete, which is the order the dict sees. -/
def process (imgs : List Image) : List (DateTime × List Image) :=
  imgs.foldl processStep []

/-- Lookup of the member list of a burst key, mirroring groups[date]; an
absent key gives the empty list. -/
def findMembers : List (DateTime × List Image) → DateTime → List Image
  | [], _ => []
  | (k, ms) :: rest, key => if k = key then ms else findMembers rest key

/-- Chronological order on datetime keys.  Sorting the isoformat strings of
datetimes lexicographically, as sorted(groups.keys()) does, coincides with
this order because the rendering is fixed-width per field with a four-digit
zero-padded year. -/
def DateTime.le (a b : DateTime) : Prop :=
  a.toMicros ≤ b.toMicros

instance : DecidableRel DateTime.le :=
  fun a b => inferInstanceAs (Decidable (a.toMicros ≤ b.toMicros))

instance : IsTotal DateTime DateTime.le :=
  ⟨fun a b => le_total a.toMicros b.toMicros⟩

instance : IsTrans DateTime DateTime.le :=
  ⟨fun _ _ _ h1 h2 => le_trans h1 h2⟩

/-- output_result of the threaded script in text mode: the burst keys are
visited in sorted ascending order and each member list is printed as
stored, without re-sorting. -/
def output_result (groups : List (DateTime × List Image)) :
    List (DateTime × List Image) :=
  (List.insertionSort DateTime.le (groups.map Prod.fst)).map
    (fun k => (k, findMembers groups k))

/-- Concrete timestamp 2019-08-26 19:54:00. -/
def dt0 : DateTime := ⟨2019, 8, 26, 19, 54, 0, 0⟩

/-- The same instant 0.005 seconds later (only reachable through the
modification-time fallback, since parsed dates have zero microseconds). -/
def dt5ms : DateTime := ⟨2019, 8, 26, 19, 54, 0, 5000⟩

/-- The same instant 10 seconds later. -/
def dt10 : DateTime := ⟨2019, 8, 26, 19, 54, 10, 0⟩

/-- Metadata of an AEB image with the given bracket offset, an exposure time
of 0.3 seconds, and no date keys, so the timestamp falls back to mtime. -/
def aebExif (offset : ℚ) : Metadata :=
  [(kBracketMode, Value.str "AEB"), (kAEBBracketValue, Value.num offset),
   (kExposureTime, Value.str "0.3")]

def i1 : Image := ⟨"IMG_0001.JPG", aebExif (-1), dt0⟩

def i2 : Image := ⟨"IMG_0002.JPG", aebExif 0, dt0⟩

def i3 : Image := ⟨"IMG_0003.JPG", aebExif 1, dt5ms⟩

def iFar : Image := ⟨"IMG_0004.JPG", aebExif 0, dt10⟩

/-- An AEB image whose metadata lacks MakerNotes:AEBBracketValue. -/
def imgNoKey : Image := ⟨"IMG_0005.JPG", [(kBracketMode, Value.str "AEB")], dt0⟩

/-- An image whose AEBBracketValue is a malformed string. -/
def imgBad : Image := ⟨"IMG_0006.JPG", [(kAEBBracketValue, Value.str "abc")], dt0⟩

/-- Metadata whose first date key is unparseable, whose second is a number,
and whose third parses. -/
def m3ex : Metadata :=
  [(kCreateDate, Value.str "garbage"), (kDateTimeOriginal, Value.num 5),
   (kModifyDate, Value.str "2019:08:26 19:54:10")]

/-- Appending one image to the grouping changes exactly the member list of
its own timestamp key, at the end. -/
theorem findMembers_addImage (acc : List (DateTime × List Image)) (img : Image)
    (k : DateTime) :
    findMembers (addImage acc img) k =
      if img.date = k then findMembers acc k ++ [img] else findMembers acc k := by
  induction acc with
  | nil =>
    by_cases h : img.date = k <;> simp [addImage, findMembers, h]
  | cons p rest ih =>
    obtain ⟨k0, ms⟩ := p
    by_cases h1 : k0 = img.date
    · subst h1
      by_cases h2 : img.date = k <;> simp [addImage, findMembers, h2]
    · by_cases h2 : k0 = k
      · subst h2
        have h3 : ¬ img.date = k0 := fun hh => h1 hh.symm
        simp [addImage, findMembers, h1, h3]
      · simp [addImage, findMembers, h1, h2, ih]

/-- Folding the collection loop over a list appends, per key, exactly the
AEB images of that exact timestamp, in list order. -/
theorem foldl_processStep_members (l : List Image)
    (acc : List (DateTime × List Image)) (k : DateTime) :
    findMembers (l.foldl processStep acc) k =
      findMembers acc k ++ l.filter (fun i => i.is_aeb && decide (i.date = k)) := by
  induction l generalizing acc with
  | nil => simp
  | cons i l ih =>
    rw [List.foldl_cons, ih]
    by_cases ha : i.is_aeb
    · by_cases hd : i.date = k
      · simp [processStep, consume, ha, findMembers_addImage, hd, List.filter_cons]
      · simp [processStep, consume, ha, findMembers_addImage, hd, List.filter_cons]
    · simp [processStep, consume, ha, List.filter_cons]

/-- The member list of any key in the process output is the input-order
filter of the AEB images carrying exactly that timestamp. -/
theorem process_members (imgs : List Image) (k : DateTime) :
    findMembers (process imgs) k =
      imgs.filter (fun i => i.is_aeb && decide (i.date = k)) := by
  have h := foldl_processStep_members imgs [] k
  simpa [process, findMembers] using h

/-- Looking up a key in a list of pairs built by tagging keys with a
function gives the function value when the key occurs and nothing
otherwise. -/
theorem findMembers_map_pair (l : List DateTime) (f : DateTime → List Image)
    (k : DateTime) :
    findMembers (l.map (fun x => (x, f x))) k = if k ∈ l then f k else [] := by
  induction l with
  | nil => simp [findMembers]
  | cons x l ih =>
    by_cases h : x = k
    · subst h
      simp [findMembers]
    · have h2 : ¬ k = x := fun hh => h hh.symm
      simp [findMembers, h, h2, ih]

/-- A key that is bound to no group has the empty member list. -/
theorem findMembers_nil_of_not_mem (g : List (DateTime × List Image))
    (k : DateTime) (h : k ∉ g.map Prod.fst) : findMembers g k = [] := by
  induction g with
  | nil => rfl
  | cons p rest ih =>
    obtain ⟨k0, ms⟩ := p
    simp only [List.map_cons, List.mem_cons] at h
    push_neg at h
    have h2 : ¬ k0 = k := fun hh => h.1 hh.symm
    simp [findMembers, h2, ih h.2]

/-- C1: on the claimed example pair itself, two AEB images 10 seconds apart
whose exposure time 0.3 is present in the metadata, almostequaltime does
not return a burst verdict: the far branch reads the nonexistent attribute
exit (a typo for exif) and raises AttributeError, which suppress(KeyError)
does not catch.  The claim promised False without an exception. -/
theorem C1_almostequaltime_raises :
    Image.almostequaltime i2 iFar = .error .attributeError ∧
    ¬ (|Image.dateMicros iFar - Image.dateMicros i2| ≤ 10000) ∧
    mget i2.exif kExposureTime = some (Value.str "0.3") :=
  ⟨rfl, by decide, rfl⟩

/-- C4: is_aeb is exactly the string-equality test of the
MakerNotes:BracketMode value against AEB; a missing key or any other value
gives false, and the function is total, so no error reaches the caller. -/
theorem C4_is_aeb_eq (img : Image) :
    img.is_aeb = decide (mget img.exif kBracketMode = some (Value.str "AEB")) := by
  unfold Image.is_aeb
  cases h : mget img.exif kBracketMode with
  | none => simp
  | some v =>
    cases v with
    | str s =>
      by_cases hs : s = "AEB"
      · simp [hs]
      · simp [hs]
    | num q => simp

/-- C5 counterexample: reading the bracket offset does not yield an absent
state; with the key missing the read evaluates to a raised KeyError, and
with a malformed value it evaluates to a raised ValueError. -/
theorem C5_counterexample :
    Image.aebvalue imgNoKey = .error .keyError ∧
    Image.aebvalue imgBad = .error .valueError :=
  ⟨rfl, rfl⟩

/-- C5 amended: the bracket-offset read parses the stored value as an exact
rational via the Fraction grammar when the key is present, and raises
KeyError to its caller when the key is absent (callers such as the ordering
suppress that KeyError); a malformed value likewise surfaces the error of
the Fraction parse. -/
theorem C5_aebvalue (img : Image) :
    (mget img.exif kAEBBracketValue = none →
      img.aebvalue = .error .keyError) ∧
    (∀ v, mget img.exif kAEBBracketValue = some v → img.aebvalue = pyFraction v) := by
  unfold Image.aebvalue
  constructor
  · intro h
    rw [h]
  · intro v h
    rw [h]

/-- C5 witness: the amended statement applied to the record without the
bracket key. -/
theorem C5_witness : Image.aebvalue imgNoKey = .error .keyError :=
  (C5_aebvalue imgNoKey).1 rfl

/-- C3: timestamp resolution tries EXIF:CreateDate, EXIF:DateTimeOriginal
and EXIF:ModifyDate in that order, returns the first value that parses,
skips absent or unparseable keys, returns the fallback modification time
when all three fail, and every parsed result has its sub-second part
zeroed. -/
theorem C3_timestamp_resolution (m : Metadata) (fb : DateTime) :
    (∀ d, convert2date (mget m kCreateDate) = some d → getDate m fb = d) ∧
    (convert2date (mget m kCreateDate) = none →
      ∀ d, convert2date (mget m kDateTimeOriginal) = some d → getDate m fb = d) ∧
    (convert2date (mget m kCreateDate) = none →
      convert2date (mget m kDateTimeOriginal) = none →
      ∀ d, convert2date (mget m kModifyDate) = some d → getDate m fb = d) ∧
    (convert2date (mget m kCreateDate) = none →
      convert2date (mget m kDateTimeOriginal) = none →
      convert2date (mget m kModifyDate) = none → getDate m fb = fb) ∧
    (∀ v d, convert2date v = some d → d.microsecond = 0) := by
  refine ⟨?_, ?_, ?_, ?_, ?_⟩
  · intro d h
    simp [getDate, getDateAux, DATA_KEYS, h]
  · intro h1 d h
    simp [getDate, getDateAux, DATA_KEYS, h1, h]
  · intro h1 h2 d h
    simp [getDate, getDateAux, DATA_KEYS, h1, h2, h]
  · intro h1 h2 h3
    simp [getDate, getDateAux, DATA_KEYS, h1, h2, h3]
  · intro v d h
    match v with
    | none => simp [convert2date] at h
    | some (Value.num q) => simp [convert2date] at h
    | some (Value.str s) =>
      simp only [convert2date] at h
      rw [Option.map_eq_some'] at h
      obtain ⟨d0, _, hd⟩ := h
      rw [← hd]

/-- C3 witness: with the first key unparseable and the second a number, the
third key decides, and an all-absent map falls back. -/
theorem C3_witness :
    getDate m3ex dt0 = dt10 :=
  (C3_timestamp_resolution m3ex dt0).2.2.1 (by decide) (by decide) dt10 (by decide)

/-- C6 amended: for records whose timestamps are within 0.01 seconds (10000
microseconds) and whose bracket offsets both parse, the ordering is exactly
the strict comparison of the two offset rationals. -/
theorem C6_lt_close (a b : Image) (qa qb : ℚ)
    (hab : |b.dateMicros - a.dateMicros| ≤ 10000)
    (ha : a.aebvalue = .ok qa) (hb : b.aebvalue = .ok qb) :
    Image.lt a b = .ok (decide (qa < qb)) := by
  simp [Image.lt, hab, ha, hb, Except.bind, suppressKeyError]

/-- C6 witness: the offset -1 record sorts strictly before the offset 0
record taken at the same timestamp. -/
theorem C6_witness : Image.lt i1 i2 = .ok true :=
  (C6_lt_close i1 i2 (-1) 0 (by decide) rfl rfl).trans
    (congrArg Except.ok (by decide))

/-- C6 counterexample: three AEB records at T, T and T + 0.005 s with
offsets -1, 0, +1 are pairwise within the 0.01 s proximity bound, yet the
grouping keys them by exact timestamp and produces two bursts, not one. -/
theorem C6_counterexample :
    Image.is_aeb i1 = true ∧ Image.is_aeb i2 = true ∧ Image.is_aeb i3 = true ∧
    |Image.dateMicros i2 - Image.dateMicros i1| ≤ 10000 ∧
    |Image.dateMicros i3 - Image.dateMicros i2| ≤ 10000 ∧
    Image.aebvalue i1 = .ok (-1) ∧ Image.aebvalue i2 = .ok 0 ∧
    Image.aebvalue i3 = .ok 1 ∧
    (process [i1, i2, i3]).length = 2 :=
  ⟨rfl, rfl, rfl, by decide, by decide, rfl, rfl, rfl, rfl⟩

/-- C10: the ordering never lets a KeyError reach its caller; when the
timestamps are close and the first read of a missing AEBBracketValue raises
KeyError, or the first offset parses and the second read raises KeyError,
the comparison returns False; and a record whose offset read raises
KeyError is never reported strictly less than any other record. -/
theorem C10_lt_suppresses (a b : Image) :
    (Image.lt a b ≠ .error .keyError) ∧
    (|b.dateMicros - a.dateMicros| ≤ 10000 →
      a.aebvalue = .error .keyError → Image.lt a b = .ok false) ∧
    (|b.dateMicros - a.dateMicros| ≤ 10000 →
      ∀ qa, a.aebvalue = .ok qa → b.aebvalue = .error .keyError →
        Image.lt a b = .ok false) ∧
    (a.aebvalue = .error .keyError → Image.lt a b ≠ .ok true) := by
  by_cases hc : |b.dateMicros - a.dateMicros| ≤ 10000
  · cases ha : a.aebvalue with
    | error e =>
      cases e with
      | keyError =>
        have hlt : Image.lt a b = .ok false := by
          simp [Image.lt, hc, ha, Except.bind, suppressKeyError]
        exact ⟨by simp [hlt], fun _ _ => hlt, fun _ qa hqa => by simp [ha] at hqa,
          fun _ => by simp [hlt]⟩
      | valueError =>
        have hlt : Image.lt a b = .error .valueError := by
          simp [Image.lt, hc, ha, Except.bind, suppressKeyError]
        exact ⟨by simp [hlt], fun _ h => by simp [ha] at h,
          fun _ qa hqa => by simp [ha] at hqa, fun h => by simp [ha] at h⟩
      | attributeError =>
        have hlt : Image.lt a b = .error .attributeError := by
          simp [Image.lt, hc, ha, Except.bind, suppressKeyError]
        exact ⟨by simp [hlt], fun _ h => by simp [ha] at h,
          fun _ qa hqa => by simp [ha] at hqa, fun h => by simp [ha] at h⟩
      | zeroDivisionError =>
        have hlt : Image.lt a b = .error .zeroDivisionError := by
          simp [Image.lt, hc, ha, Except.bind, suppressKeyError]
        exact ⟨by simp [hlt], fun _ h => by simp [ha] at h,
          fun _ qa hqa => by simp [ha] at hqa, fun h => by simp [ha] at h⟩
    | ok qa =>
      cases hb : b.aebvalue with
      | error e =>
        cases e with
        | keyError =>
          have hlt : Image.lt a b = .ok false := by
            simp [Image.lt, hc, ha, hb, Except.bind, suppressKeyError]
          exact ⟨by simp [hlt], fun _ h => by simp [ha] at h,
            fun _ _ _ _ => hlt, fun h => by simp [ha] at h⟩
        | valueError =>
          have hlt : Image.lt a b = .error .valueError := by
            simp [Image.lt, hc, ha, hb, Except.bind, suppressKeyError]
          exact ⟨by simp [hlt], fun _ h => by simp [ha] at h,
            fun _ qa0 _ hqb => by simp [hb] at hqb, fun h => by simp [ha] at h⟩
        | attributeError =>
          have hlt : Image.lt a b = .error .attributeError := by
            simp [Image.lt, hc, ha, hb, Except.bind, suppressKeyError]
          exact ⟨by simp [hlt], fun _ h => by simp [ha] at h,
            fun _ qa0 _ hqb => by simp [hb] at hqb, fun h => by simp [ha] at h⟩
        | zeroDivisionError =>
          have hlt : Image.lt a b = .error .zeroDivisionError := by
            simp [Image.lt, hc, ha, hb, Except.bind, suppressKeyError]
          exact ⟨by simp [hlt], fun _ h => by simp [ha] at h,
            fun _ qa0 _ hqb => by simp [hb] at hqb, fun h => by simp [ha] at h⟩
      | ok qb =>
        have hlt : Image.lt a b = .ok (decide (qa < qb)) := by
          simp [Image.lt, hc, ha, hb, Except.bind, suppressKeyError]
        exact ⟨by simp [hlt], fun _ h => by simp [ha] at h,
          fun _ qa0 _ hqb => by simp [hb] at hqb, fun h => by simp [ha] at h⟩
  · have hlt : Image.lt a b = .error .attributeError := by
      simp [Image.lt, hc, Image.exitAttr, Except.bind, suppressKeyError]
    exact ⟨by simp [hlt], fun h => absurd h hc, fun h => absurd h hc,
      fun _ => by simp [hlt]⟩

/-- C10 witness: a record without the bracket key compared, at equal
timestamps, against a normal record: the KeyError is suppressed and the
comparison returns False. -/
theorem C10_witness : Image.lt imgNoKey i1 = .ok false :=
  (C10_lt_suppresses imgNoKey i1).2.1 (by decide) rfl

/-- C2 amended: the grouping performs no sort and no proximity test; the
member list of every burst key is exactly the completion-order filter of
the AEB records whose timestamp equals that key, so records with unequal
timestamps never share a burst. -/
theorem C2_grouping (imgs : List Image) (k : DateTime) :
    findMembers (process imgs) k =
      imgs.filter (fun i => i.is_aeb && decide (i.date = k)) ∧
    ∀ img, img ∈ findMembers (process imgs) k → img.date = k := by
  refine ⟨process_members imgs k, ?_⟩
  intro img h
  rw [process_members] at h
  have h2 := (List.mem_filter.mp h).2
  simp only [Bool.and_eq_true, decide_eq_true_eq] at h2
  exact h2.2

/-- C2 witness: the amended characterization applied to a singleton input. -/
theorem C2_witness : Image.date i1 = dt0 :=
  (C2_grouping [i1] dt0).2 i1 (by decide)

/-- C2 counterexample: two AEB records 0.005 s apart pass the claimed
proximity test, yet the grouping places them in two distinct bursts because
it keys on exact timestamps and never consults the proximity test. -/
theorem C2_counterexample :
    Image.is_aeb i2 = true ∧ Image.is_aeb i3 = true ∧
    |Image.dateMicros i3 - Image.dateMicros i2| ≤ 10000 ∧
    (process [i2, i3]).length = 2 :=
  ⟨rfl, rfl, by decide, rfl⟩

/-- C8: every record of every burst of the grouping output satisfies
is_aeb; non-AEB records are dropped by consume before insertion. -/
theorem C8_members_are_aeb (imgs : List Image) (k : DateTime) (img : Image)
    (h : img ∈ findMembers (process imgs) k) : img.is_aeb = true := by
  rw [process_members] at h
  have h2 := (List.mem_filter.mp h).2
  simp only [Bool.and_eq_true] at h2
  exact h2.1

/-- C8 witness: applied to a singleton AEB input. -/
theorem C8_witness : Image.is_aeb i1 = true :=
  C8_members_are_aeb [i1] dt0 i1 (by decide)

/-- C9 amended: the grouping is a deterministic function of the input
sequence, and under a permutation of the input every burst keeps the same
members up to order (the member list of each key is permuted accordingly);
the member order itself follows the input order and is not
permutation-invariant. -/
theorem C9_perm_members (l1 l2 : List Image) (h : l1.Perm l2) (k : DateTime) :
    (findMembers (process l1) k).Perm (findMembers (process l2) k) := by
  rw [process_members, process_members]
  exact h.filter _

/-- C9 witness: the two orders of the same two-record set give permuted
member lists for their common key. -/
theorem C9_witness :
    (findMembers (process [i1, i2]) dt0).Perm
      (findMembers (process [i2, i1]) dt0) :=
  C9_perm_members [i1, i2] [i2, i1] (List.Perm.swap i2 i1 []) dt0

/-- C9 counterexample: reversing the completion order of two same-timestamp
records changes the output, because the within-burst member order follows
the input order. -/
theorem C9_counterexample :
    process [i1, i2] ≠ process [i2, i1] := by
  decide

/-- C7 amended: the text output visits burst keys in ascending key order,
and each member list is passed through exactly as the grouping stored it,
in completion order, without re-sorting by the image ordering relation. -/
theorem C7_output_sorted (imgs : List Image) :
    List.Sorted DateTime.le ((output_result (process imgs)).map Prod.fst) ∧
    ∀ k, findMembers (output_result (process imgs)) k =
      findMembers (process imgs) k := by
  constructor
  · have hmap : (output_result (process imgs)).map Prod.fst
        = List.insertionSort DateTime.le ((process imgs).map Prod.fst) := by
      simp only [output_result, List.map_map]
      exact List.map_id _
    rw [hmap]
    exact List.sorted_insertionSort DateTime.le _
  · intro k
    simp only [output_result]
    rw [findMembers_map_pair]
    by_cases hk : k ∈ List.insertionSort DateTime.le ((process imgs).map Prod.fst)
    · rw [if_pos hk]
    · rw [if_neg hk]
      have hk2 : k ∉ (process imgs).map Prod.fst := by
        intro hmem
        exact hk (((List.perm_insertionSort DateTime.le _).mem_iff).mpr hmem)
      exact (findMembers_nil_of_not_mem _ _ hk2).symm

/-- C7 counterexample: a burst whose members arrived in the order offset 0
then offset -1 is printed in that insertion order even though the second
member is strictly less than the first under the image ordering, so the
within-burst output is not ascending in that relation. -/
theorem C7_counterexample :
    output_result (process [i2, i1]) = [(dt0, [i2, i1])] ∧
    Image.lt i1 i2 = .ok true ∧ Image.lt i2 i1 = .ok false :=
  ⟨rfl, rfl, rfl⟩
